import Mathlib

/-!
Shallow embedding of the `chava` data-integrity library (Python) in Lean 4,
together with theorems settling the frozen claims about its specification.

The embedding follows the source files `src/chava/core.py`, `src/chava/algebra.py`,
`src/chava/kms.py` and `src/chava/indexes.py`.  Conventions of the embedding:

* JSON-shaped Python values become the inductive type `Chava.JValue`
  (numbers are modelled as integers; no claim depends on float semantics).
* Python dict-shaped evidence records become the structure `Chava.ERecord`;
  keys that the source reads with `dict.get` (and which may be absent) are
  `Option`-typed fields.
* Python exceptions become `Except` / `Option` results
  (`unwrap` raising `ObligationViolation` is `Except`, `discharge` raising
  `KeyError` for an unregistered verifier kind is `Option`).
* `time.time()` (a side effect) becomes an explicit `now : Int` argument.
* Byte strings are `List Nat` (each entry a byte value `< 256`); SHA-256,
  HMAC and PBKDF2 are implemented concretely over them, with 32-bit words
  modelled as `Nat` reduced `% 2^32` at every step.
-/

namespace Chava

/-- Tree-shaped JSON value, as carried in `ChavaObject.value`.
Numbers are modelled as integers (no claim depends on numeric semantics). -/
inductive JValue where
  | null : JValue
  | bool (b : Bool) : JValue
  | num (n : Int) : JValue
  | str (s : String) : JValue
  | arr (elems : List JValue) : JValue
  | obj (fields : List (String × JValue)) : JValue

/-- Source: `scope.startswith(prefixStr)` — Python `str.startswith`, modelled
through the character lists. -/
def pyStartswith (s pre : String) : Bool :=
  pre.toList.isPrefixOf s.toList

/-- Unescape one JSON-Pointer token: `~1` decodes to `/` and `~0` to `~`
(RFC 6901, as performed by the `jsonpointer` library). -/
def unescapeToken : List Char → List Char
  | '~' :: '1' :: rest => '/' :: unescapeToken rest
  | '~' :: '0' :: rest => '~' :: unescapeToken rest
  | c :: rest => c :: unescapeToken rest
  | [] => []

/-- Is the token a decimal array index?  (The `jsonpointer` library requires a
digit string for sequence access; the `-` end-of-list sentinel and malformed
tokens are modelled as resolution failure.) -/
def isIndexToken (t : List Char) : Bool :=
  !t.isEmpty && t.all (fun c => c.isDigit)

/-- Decimal value of a digit token. -/
def tokenToNat (t : List Char) : Nat :=
  t.foldl (fun acc c => acc * 10 + (c.toNat - 48)) 0

/-- First binding of `key` in an association list (Python dict lookup:
keys are unique in a dict, so first match is the match). -/
def assocLookup (key : String) : List (String × JValue) → Option JValue
  | [] => none
  | (k, v) :: rest => if k = key then some v else assocLookup key rest

/-- Walk a list of (already split, still escaped) reference tokens, as the
`jsonpointer` library's `resolve` does. -/
def resolveTokens : JValue → List (List Char) → Option JValue
  | v, [] => some v
  | JValue.obj fields, t :: ts =>
    match assocLookup (String.mk (unescapeToken t)) fields with
    | some v => resolveTokens v ts
    | none => none
  | JValue.arr elems, t :: ts =>
    if isIndexToken (unescapeToken t) then
      match elems[tokenToNat (unescapeToken t)]? with
      | some v => resolveTokens v ts
      | none => none
    else none
  | _, _ :: _ => none

/-- Split the characters of a string on `/`. -/
def splitSlash (cs : List Char) : List (List Char) :=
  match cs with
  | [] => [[]]
  | '/' :: rest => [] :: splitSlash rest
  | c :: rest =>
    match splitSlash rest with
    | tok :: toks => (c :: tok) :: toks
    | [] => [[c]]

/-- Source: `jsonpointer.resolve_pointer(doc, pointer)`; `none` models a raised
`JsonPointerException` (empty pointer resolves to the whole document, any other
pointer must start with `/` and is split on `/`). -/
def resolvePtr (v : JValue) (ptr : String) : Option JValue :=
  if ptr = "" then some v
  else
    match ptr.toList with
    | '/' :: rest => resolveTokens v (splitSlash rest)
    | _ => none

/-- Evidence record (a Python dict in the source).  Fields that the source
reads with `record.get(...)` — and which may be absent in legacy records —
are `Option`-typed: `prev_hash`, `kind`, `scope`, `hash`.
`timestamp` (`time.time()` in the source) is modelled as an integer. -/
structure ERecord where
  verifier_id : String
  result : String
  timestamp : Int
  prev_hash : Option String
  kind : Option String
  scope : Option String
  hash : Option String
deriving DecidableEq

/-- A Chava object: a value, a multiset of `(kind, scope)` obligations kept as
an ordered list, and an append-only evidence log (`core.py`, `ChavaObject`). -/
structure ChavaObject where
  value : JValue
  obligations : List (String × String)
  evidence : List ERecord

/-- Source `core.has_conflict`, inner loop: scan a group's results left to
right with a `reject_found` flag; conflict when an `accept` follows a
`reject`. -/
def rtaScan (found : Bool) : List String → Bool
  | [] => false
  | r :: rs =>
    if r = "reject" then rtaScan true rs
    else if r = "accept" && found then true
    else rtaScan found rs

/-- The sequence of results of the records of one `kind` group, in log order
(the source groups records into `latest_verdicts[kind]` preserving order;
records without a `kind` key all land in the single `none` bucket). -/
def resultsForKind (evidence : List ERecord) (k : Option String) : List String :=
  (evidence.filter (fun r => r.kind == k)).map (fun r => r.result)

/-- Source `core.has_conflict`: detect reject-then-accept conflicts for the
same kind.  The source builds a dict of per-kind result lists and scans each
group; scanning the group of every record's kind (duplicates included) is
extensionally the same. -/
def has_conflict (evidence : List ERecord) : Bool :=
  (evidence.map (fun r => r.kind)).any (fun k => rtaScan false (resultsForKind evidence k))

/-- Source `core.is_cleared`: obligations empty and evidence conflict-free. -/
def is_cleared (obj : ChavaObject) : Bool :=
  obj.obligations.length == 0 && !has_conflict obj.evidence

/-- The payload of the `ObligationViolation` raised by `unwrap`:
`set(kind for kind, scope in obj.obligations)`. -/
def residualKinds (obligations : List (String × String)) : Finset String :=
  (obligations.map Prod.fst).toFinset

/-- Source `core.unwrap`: return the value iff cleared, otherwise raise
`ObligationViolation` carrying the set of remaining obligation kinds. -/
def unwrap (obj : ChavaObject) : Except (Finset String) JValue :=
  if is_cleared obj then Except.ok obj.value
  else Except.error (residualKinds obj.obligations)

/-! ### SHA-256 over byte lists

A concrete FIPS 180-4 SHA-256, embedding Python's `hashlib.sha256`.
Bytes and 32-bit words are `Nat`, reduced `% 2^32` (`% 256`) explicitly. -/

/-- Truncate to a 32-bit word. -/
def w32 (n : Nat) : Nat := n % 4294967296

/-- Right-rotate a 32-bit word by `n` bits. -/
def rotr (n w : Nat) : Nat := w32 ((w >>> n) ||| (w <<< (32 - n)))

/-- The 64 SHA-256 round constants, written in decimal. -/
def sha256K : List Nat :=
  [1116352408, 1899447441, 3049323471, 3921009573, 961987163,
   1508970993, 2453635748, 2870763221, 3624381080, 310598401,
   607225278, 1426881987, 1925078388, 2162078206, 2614888103,
   3248222580, 3835390401, 4022224774, 264347078, 604807628,
   770255983, 1249150122, 1555081692, 1996064986, 2554220882,
   2821834349, 2952996808, 3210313671, 3336571891, 3584528711,
   113926993, 338241895, 666307205, 773529912, 1294757372,
   1396182291, 1695183700, 1986661051, 2177026350, 2456956037,
   2730485921, 2820302411, 3259730800, 3345764771, 3516065817,
   3600352804, 4094571909, 275423344, 430227734, 506948616,
   659060556, 883997877, 958139571, 1322822218, 1537002063,
   1747873779, 1955562222, 2024104815, 2227730452, 2361852424,
   2428436474, 2756734187, 3204031479, 3329325298]

/-- The eight SHA-256 initial state words, written in decimal. -/
def sha256H0 : List Nat :=
  [1779033703, 3144134277, 1013904242, 2773480762,
   1359893119, 2600822924, 528734635, 1541459225]

/-- `i`-th element of a word list (out-of-range reads 0; never hit in use). -/
def wordAt (ws : List Nat) (i : Nat) : Nat := ws.getD i 0

/-- Combine 4 consecutive bytes (big-endian) into 32-bit words. -/
def bytesToWords : List Nat → List Nat
  | b0 :: b1 :: b2 :: b3 :: rest =>
    (((b0 * 256 + b1) * 256 + b2) * 256 + b3) :: bytesToWords rest
  | _ => []

/-- Big-endian bytes of `n`, `len` bytes wide. -/
def natToBytesBE (len n : Nat) : List Nat :=
  match len with
  | 0 => []
  | l + 1 => natToBytesBE l (n / 256) ++ [n % 256]

/-- Extend the 16-word message schedule by `rounds` further words. -/
def sha256Extend (ws : List Nat) : Nat → List Nat
  | 0 => ws
  | r + 1 =>
    let i := ws.length
    let s0 := (rotr 7 (wordAt ws (i - 15))) ^^^ (rotr 18 (wordAt ws (i - 15))) ^^^
      ((wordAt ws (i - 15)) >>> 3)
    let s1 := (rotr 17 (wordAt ws (i - 2))) ^^^ (rotr 19 (wordAt ws (i - 2))) ^^^
      ((wordAt ws (i - 2)) >>> 10)
    sha256Extend (ws ++ [w32 (wordAt ws (i - 16) + s0 + wordAt ws (i - 7) + s1)]) r

/-- Working state of one SHA-256 compression. -/
structure ShaState where
  a : Nat
  b : Nat
  c : Nat
  d : Nat
  e : Nat
  f : Nat
  g : Nat
  h : Nat

/-- One SHA-256 round for schedule word `wi` and constant `ki`. -/
def sha256Round (st : ShaState) (kw : Nat × Nat) : ShaState :=
  let s1 := (rotr 6 st.e) ^^^ (rotr 11 st.e) ^^^ (rotr 25 st.e)
  let ch := (st.e &&& st.f) ^^^ ((st.e ^^^ 4294967295) &&& st.g)
  let temp1 := w32 (st.h + s1 + ch + kw.1 + kw.2)
  let s0 := (rotr 2 st.a) ^^^ (rotr 13 st.a) ^^^ (rotr 22 st.a)
  let maj := (st.a &&& st.b) ^^^ (st.a &&& st.c) ^^^ (st.b &&& st.c)
  let temp2 := w32 (s0 + maj)
  ⟨w32 (temp1 + temp2), st.a, st.b, st.c, w32 (st.d + temp1), st.e, st.f, st.g⟩

/-- Compress one 64-byte block into the running 8-word state. -/
def sha256Compress (hs : List Nat) (block : List Nat) : List Nat :=
  let ws := sha256Extend (bytesToWords block) 48
  let st0 : ShaState :=
    ⟨wordAt hs 0, wordAt hs 1, wordAt hs 2, wordAt hs 3,
     wordAt hs 4, wordAt hs 5, wordAt hs 6, wordAt hs 7⟩
  let st := ((sha256K.zip ws).map (fun p => (p.2, p.1))).foldl sha256Round st0
  [w32 (wordAt hs 0 + st.a), w32 (wordAt hs 1 + st.b), w32 (wordAt hs 2 + st.c),
   w32 (wordAt hs 3 + st.d), w32 (wordAt hs 4 + st.e), w32 (wordAt hs 5 + st.f),
   w32 (wordAt hs 6 + st.g), w32 (wordAt hs 7 + st.h)]

/-- Fold the compression over `n` consecutive 64-byte blocks. -/
def sha256Blocks (hs : List Nat) (bytes : List Nat) : Nat → List Nat
  | 0 => hs
  | n + 1 => sha256Blocks (sha256Compress hs (bytes.take 64)) (bytes.drop 64) n

/-- SHA-256 padding: `0x80`, zeros to 56 mod 64, then the bit length as
8 big-endian bytes. -/
def sha256Pad (msg : List Nat) : List Nat :=
  msg ++ [128] ++ List.replicate ((119 - msg.length % 64) % 64) 0 ++
    natToBytesBE 8 (msg.length * 8)

/-- SHA-256 digest (32 bytes) of a byte list. -/
def sha256 (msg : List Nat) : List Nat :=
  let padded := sha256Pad msg
  let hs := sha256Blocks sha256H0 padded (padded.length / 64)
  hs.flatMap (natToBytesBE 4)

/-- Lowercase hex digit. -/
def hexDigit (n : Nat) : Char :=
  if n < 10 then Char.ofNat (48 + n) else Char.ofNat (87 + n)

/-- Lowercase hex encoding of a byte list (`hexdigest` in the source). -/
def bytesToHex (bs : List Nat) : String :=
  String.mk (bs.flatMap (fun b => [hexDigit (b / 16), hexDigit (b % 16)]))

/-- UTF-8 encoding of one character (Python `str.encode()`). -/
def utf8Char (c : Char) : List Nat :=
  let n := c.toNat
  if n < 128 then [n]
  else if n < 2048 then [192 + n / 64, 128 + n % 64]
  else if n < 65536 then [224 + n / 4096, 128 + (n / 64) % 64, 128 + n % 64]
  else [240 + n / 262144, 128 + (n / 4096) % 64, 128 + (n / 64) % 64, 128 + n % 64]

/-- UTF-8 encoding of a string (Python `str.encode()`). -/
def utf8 (s : String) : List Nat :=
  s.toList.flatMap utf8Char

/-- Hex digest of the SHA-256 of the UTF-8 bytes of a string:
`hashlib.sha256(s.encode()).hexdigest()`. -/
def sha256HexOfString (s : String) : String :=
  bytesToHex (sha256 (utf8 s))

/-! ### Canonical evidence hashing (`core.compute_evidence_hash`) -/

/-- Four lowercase hex digits (for `\uXXXX` escapes, as Python renders them). -/
def hex4 (n : Nat) : List Char :=
  [hexDigit (n / 4096 % 16), hexDigit (n / 256 % 16), hexDigit (n / 16 % 16), hexDigit (n % 16)]

/-- JSON escape of one character, matching Python `json.dumps` defaults
(`ensure_ascii=True`): quote, backslash and controls are escaped, every
non-ASCII character becomes `\uXXXX` (surrogate pairs above `0xFFFF`). -/
def jsonEscapeChar (c : Char) : List Char :=
  let n := c.toNat
  if c = '"' then ['\\', '"']
  else if c = '\\' then ['\\', '\\']
  else if c = '\n' then ['\\', 'n']
  else if c = '\r' then ['\\', 'r']
  else if c = '\t' then ['\\', 't']
  else if n = 8 then ['\\', 'b']
  else if n = 12 then ['\\', 'f']
  else if n < 32 then '\\' :: 'u' :: hex4 n
  else if n < 127 then [c]
  else if n < 65536 then '\\' :: 'u' :: hex4 n
  else
    ('\\' :: 'u' :: hex4 (55296 + (n - 65536) / 1024)) ++
    ('\\' :: 'u' :: hex4 (56320 + (n - 65536) % 1024))

/-- A JSON string literal as rendered by Python `json.dumps`. -/
def jsonStr (s : String) : String :=
  String.mk ('"' :: s.toList.flatMap jsonEscapeChar ++ ['"'])

/-- The canonical serialization hashed by `core.compute_evidence_hash`:
`json.dumps({"ver": …, "res": …, "ts": …, "prev": record.get("prev_hash", "")},
sort_keys=True)` — keys in sorted order `prev`, `res`, `ts`, `ver`, with
Python's default `", "` and `": "` separators. -/
def canonicalEvidenceJson (r : ERecord) : String :=
  "\x7b\"prev\": " ++ jsonStr (r.prev_hash.getD "") ++
  ", \"res\": " ++ jsonStr r.result ++
  ", \"ts\": " ++ toString r.timestamp ++
  ", \"ver\": " ++ jsonStr r.verifier_id ++ "\x7d"

/-- Source `core.compute_evidence_hash`: SHA-256 hex digest of the canonical
serialization of the four fields `verifier_id`, `result`, `timestamp`,
`prev_hash` (and of nothing else). -/
def compute_evidence_hash (r : ERecord) : String :=
  sha256HexOfString (canonicalEvidenceJson r)

/-- One step of `core.verify_evidence_chain`: check the stored hash of each
record against the recomputed canonical hash and, from the second record on,
check `record.get("prev_hash", "") == previous.get("hash", "")`. -/
def verifyChainFrom : Option ERecord → List ERecord → Bool
  | _, [] => true
  | prev, r :: rest =>
    if r.hash ≠ some (compute_evidence_hash r) then false
    else
      match prev with
      | none => verifyChainFrom (some r) rest
      | some p =>
        if r.prev_hash.getD "" ≠ p.hash.getD "" then false
        else verifyChainFrom (some r) rest

/-- Source `core.verify_evidence_chain`: empty logs verify; otherwise each
record's hash must recompute and each link must match. -/
def verify_evidence_chain (evidence : List ERecord) : Bool :=
  verifyChainFrom none evidence

/-! ### The discharge protocol (`core.discharge`) -/

/-- The sub-value handed to the verifier by `discharge`: the whole value for
the empty scope, otherwise the resolved pointer, with a failed resolution
passed on as `null` (Python `None`). -/
def dischargeScopedValue (obj : ChavaObject) (scope : String) : JValue :=
  if scope = "" then obj.value
  else (resolvePtr obj.value scope).getD JValue.null

/-- Source `core.discharge`: run the verifier for `kind` on the scoped value,
append one hash-chained evidence record, and remove one occurrence of
`(kind, scope)` iff the verdict is `accept`.  If `(kind, scope)` is not among
the obligations, return a copy unchanged (before any registry lookup).
A missing verifier is the registry's `KeyError`, modelled as `none`;
`now` is the `time.time()` timestamp. -/
def discharge (obj : ChavaObject) (kind scope : String)
    (registry : String → Option (JValue → String → String))
    (verifier_id : String) (now : Int) : Option ChavaObject :=
  if (kind, scope) ∉ obj.obligations then some obj
  else
    match registry kind with
    | none => none
    | some verifier =>
      let result := verifier (dischargeScopedValue obj scope) scope
      let prev_hash :=
        match obj.evidence.getLast? with
        | some r => r.hash.getD ""
        | none => ""
      let record0 : ERecord :=
        ⟨verifier_id, result, now, some prev_hash, some kind, some scope, none⟩
      let record : ERecord :=
        ⟨verifier_id, result, now, some prev_hash, some kind, some scope,
         some (compute_evidence_hash record0)⟩
      let obligations' :=
        if result = "accept" then obj.obligations.erase (kind, scope)
        else obj.obligations
      some ⟨obj.value, obligations', obj.evidence ++ [record]⟩

/-! ### Key derivation (`kms.py`) -/

/-- Escape of one character inside a Python `repr` string literal with quote
character `q`.  ASCII control characters become `\xNN`; `repr` keeps
printable characters (the Unicode-category printability test for non-ASCII
characters is beyond the embedding and irrelevant to the claims, which only
need that the rendering is a function of the string). -/
def pyReprChar (q : Char) (c : Char) : List Char :=
  if c = '\\' then ['\\', '\\']
  else if c = q then ['\\', q]
  else if c = '\n' then ['\\', 'n']
  else if c = '\r' then ['\\', 'r']
  else if c = '\t' then ['\\', 't']
  else if c.toNat < 32 ∨ c.toNat = 127 then
    ['\\', 'x', hexDigit (c.toNat / 16), hexDigit (c.toNat % 16)]
  else [c]

/-- Python `repr` of a string: single-quoted, unless the string contains a
single quote and no double quote, in which case double-quoted. -/
def pyRepr (s : String) : String :=
  let q := if s.toList.contains '\'' && !s.toList.contains '"' then '"' else '\''
  String.mk (q :: s.toList.flatMap (pyReprChar q) ++ [q])

/-- Python `str` of one `(kind, scope)` tuple. -/
def pyReprPair (p : String × String) : String :=
  "(" ++ pyRepr p.1 ++ ", " ++ pyRepr p.2 ++ ")"

/-- Python `str` of a list of `(kind, scope)` tuples. -/
def pyStrOfList (l : List (String × String)) : String :=
  "[" ++ String.intercalate ", " (l.map pyReprPair) ++ "]"

/-- Python tuple comparison on `(kind, scope)`: lexicographic by first then
second component, strings compared by code point (which is exactly Mathlib's
linear order on `String`). -/
def obligationLe (a b : String × String) : Bool :=
  decide (a.1 < b.1 ∨ (a.1 = b.1 ∧ a.2 ≤ b.2))

/-- Python `sorted` on a list of `(kind, scope)` tuples. -/
def pySorted (l : List (String × String)) : List (String × String) :=
  l.mergeSort obligationLe

/-- Bytewise xor of two byte lists of equal length. -/
def xorBytes (a b : List Nat) : List Nat :=
  (a.zip b).map (fun p => p.1 ^^^ p.2)

/-- HMAC-SHA-256 over byte lists (RFC 2104): pad or hash the key to the
64-byte block size, then nest two SHA-256 calls over the ipad/opad keys. -/
def hmacSha256 (key msg : List Nat) : List Nat :=
  let k0 := if key.length > 64 then sha256 key else key
  let kBlock := k0 ++ List.replicate (64 - k0.length) 0
  let ipad := kBlock.map (fun b => b ^^^ 54)
  let opad := kBlock.map (fun b => b ^^^ 92)
  sha256 (opad ++ sha256 (ipad ++ msg))

/-- The `U_2 ⊕ … ⊕ U_c` tail of one PBKDF2 block: iterate HMAC and xor. -/
def pbkdf2Iter (pwd u acc : List Nat) : Nat → List Nat
  | 0 => acc
  | n + 1 =>
    let u' := hmacSha256 pwd u
    pbkdf2Iter pwd u' (xorBytes acc u') n

/-- One PBKDF2-HMAC-SHA-256 output block `T_i` (RFC 8018). -/
def pbkdf2Block (pwd salt : List Nat) (iterations blockIdx : Nat) : List Nat :=
  let u1 := hmacSha256 pwd (salt ++ natToBytesBE 4 blockIdx)
  pbkdf2Iter pwd u1 u1 (iterations - 1)

/-- PBKDF2-HMAC-SHA-256 (as instantiated by `cryptography`'s `PBKDF2HMAC`
with `algorithm=SHA256`): concatenate blocks and truncate to `dkLen`. -/
def pbkdf2HmacSha256 (pwd salt : List Nat) (iterations dkLen : Nat) : List Nat :=
  let nblocks := (dkLen + 31) / 32
  (((List.range nblocks).map (fun i => pbkdf2Block pwd salt iterations (i + 1))).flatten).take dkLen

/-- Source `kms.KeyManagementService.derive_key`: canonicalise the obligation
list by sorting, hash `str(sorted(obligations))` with SHA-256 to obtain the
salt, then run PBKDF2-HMAC-SHA-256 (100 000 iterations, 32 bytes) with the
server secret as key material. -/
def derive_key (obligations : List (String × String)) (server_secret : List Nat) : List Nat :=
  let norm := obligations.map (fun p => (p.1, p.2))
  let oblStr := pyStrOfList (pySorted norm)
  let oblHash := sha256 (utf8 oblStr)
  pbkdf2HmacSha256 server_secret oblHash 100000 32

/-- Source `kms.KeyManagementService.verify_and_release_key`: release the
cleared key `derive_key([], σ)` iff obligations are empty, the evidence chain
verifies, and the evidence is conflict-free; otherwise `None`. -/
def verify_and_release_key (server_secret : List Nat) (obj : ChavaObject) :
    Option (List Nat) :=
  if obj.obligations.length > 0 then none
  else if !verify_evidence_chain obj.evidence then none
  else if has_conflict obj.evidence then none
  else some (derive_key [] server_secret)

/-! ### Scope algebra (`algebra.py`) -/

/-- The prefix-match step of `algebra.relscope` on the normalised character
lists: `scope.startswith(path)`, then `scope[len(path):].lstrip('/')`,
returned re-rooted with `/` (the empty remainder becoming `""`). -/
def relscopeCore (s p : List Char) : String :=
  if p.isPrefixOf s then
    let remaining := (s.drop p.length).dropWhile (fun c => c == '/')
    if remaining = [] then "" else String.mk ('/' :: remaining)
  else ""

/-- Source `algebra.relscope`: reanchor `scope` relative to `path`.  Empty
scopes stay empty; both inputs are normalised by stripping leading `/`; if
the normalised scope starts with the normalised path, the remainder (with its
leading slashes stripped) is returned re-rooted with `/`, the empty remainder
becoming `""`; otherwise `""`. -/
def relscope (scope path : String) : String :=
  if scope = "" then ""
  else relscopeCore (scope.toList.dropWhile (fun c => c == '/'))
    (path.toList.dropWhile (fun c => c == '/'))

/-- The obligation-rewriting loop of `algebra.project`: keep and reanchor
obligations at or below the path (or unscoped ones), retarget obligations
strictly above the path to the whole projected value, drop disjoint ones. -/
def projectObligations (path : String) : List (String × String) → List (String × String)
  | [] => []
  | (kind, scope) :: rest =>
    if scope = "" ∨ scope = path ∨ pyStartswith scope (path ++ "/") then
      (kind, relscope scope path) :: projectObligations path rest
    else if pyStartswith path (scope ++ "/") then
      (kind, "") :: projectObligations path rest
    else projectObligations path rest

/-- Source `algebra.project`: extract the sub-value at `path`; on resolution
failure return a `null`-valued object with an extra `("invalid_path", "")`
obligation, otherwise rewrite the obligations and keep the evidence. -/
def project (obj : ChavaObject) (path : String) : ChavaObject :=
  match resolvePtr obj.value path with
  | none => ⟨JValue.null, obj.obligations ++ [("invalid_path", "")], obj.evidence⟩
  | some v => ⟨v, projectObligations path obj.obligations, obj.evidence⟩

/-! ### Hierarchical pointer index (`indexes.py`) -/

/-- A node of `HierarchicalPointerIndex`: a set of object ids (modelled as a
duplicate-free list) and an insertion-ordered dict of children. -/
inductive Trie where
  | node (ids : List String) (children : List (String × Trie))

/-- The empty trie (`TrieNode()`). -/
def Trie.empty : Trie := .node [] []

/-- Python `set.add`. -/
def insertId (i : String) (ids : List String) : List String :=
  if i ∈ ids then ids else ids ++ [i]

/-- Dict lookup among a node's children. -/
def lookupChild (children : List (String × Trie)) (c : String) : Option Trie :=
  match children with
  | [] => none
  | (c', t) :: rest => if c' = c then some t else lookupChild rest c

/-- Replace the binding of `c` (dicts have unique keys, so first match), or
append a fresh binding at the end — Python dict insertion order. -/
def setChild (children : List (String × Trie)) (c : String) (t : Trie) :
    List (String × Trie) :=
  match children with
  | [] => [(c, t)]
  | (c', t') :: rest => if c' = c then (c, t) :: rest else (c', t') :: setChild rest c t

/-- Source `HierarchicalPointerIndex._split_path`: strip leading slashes;
the empty result is the root (no components), otherwise split on `/`. -/
def splitPath (path : String) : List String :=
  if path = "" then []
  else
    let stripped := path.toList.dropWhile (fun c => c == '/')
    if stripped = [] then []
    else (splitSlash stripped).map String.mk

/-- Walk/create the nodes of a component list and add the id at its end
(the loop body of `HierarchicalPointerIndex.add`). -/
def Trie.insertPath (i : String) : Trie → List String → Trie
  | .node ids children, [] => .node (insertId i ids) children
  | .node ids children, c :: cs =>
    let child := (lookupChild children c).getD Trie.empty
    .node ids (setChild children c (child.insertPath i cs))

/-- Source `HierarchicalPointerIndex.add`: for each obligation, record the id
at the root for the empty scope, else at the node of the scope's components. -/
def Trie.add (t : Trie) (objId : String) (obligations : List (String × String)) : Trie :=
  obligations.foldl
    (fun acc p =>
      if p.2 = "" then
        match acc with
        | .node ids children => .node (insertId objId ids) children
      else acc.insertPath objId (splitPath p.2))
    t

/-- The traversal of `get_objects_at_path`: follow the query components,
but on a missing child `break` — stay at the node reached so far. -/
def Trie.descend : Trie → List String → Trie
  | t, [] => t
  | .node ids children, c :: cs =>
    match lookupChild children c with
    | some t' => t'.descend cs
    | none => .node ids children

mutual

/-- All ids of a subtree (the stack-based DFS of `get_objects_at_path`,
order-insensitively: the source returns a set). -/
def Trie.collect : Trie → List String
  | .node ids children => ids ++ collectChildren children

/-- Ids of a forest of children subtrees. -/
def collectChildren : List (String × Trie) → List String
  | [] => []
  | (_, t) :: rest => t.collect ++ collectChildren rest

end

/-- Source `HierarchicalPointerIndex.get_objects_at_path`: descend along the
query path (with the `break`-on-missing-child behaviour) and return every id
in the subtree of the node reached. -/
def get_objects_at_path (t : Trie) (path : String) : List String :=
  (t.descend (splitPath path)).collect

/-! ### Sanity anchor for the hash embedding -/

set_option maxRecDepth 10000 in
/-- The embedded SHA-256 reproduces the FIPS 180-4 test vector for `"abc"`,
anchoring every hash-dependent definition of this development. -/
theorem sha256_fips_vector :
    sha256HexOfString "abc" =
      "ba7816bf8f01cfea414140de5dae2223b00361a396177a9cb410ff61f20015ad" := by
  decide

/-! ### Claim C1 — `unwrap` succeeds exactly on cleared objects -/

/-- Claim C1: `unwrap(o)` returns `o.value` when `is_cleared(o)` holds, raises
`ObligationViolation` carrying the set of residual obligation kinds whenever
`o` has at least one obligation or a reject-then-accept conflict, and never
returns a value in any other way. -/
theorem unwrap_iff_cleared (obj : ChavaObject) :
    (is_cleared obj = true → unwrap obj = Except.ok obj.value)
    ∧ (obj.obligations ≠ [] ∨ has_conflict obj.evidence = true →
        unwrap obj = Except.error (residualKinds obj.obligations))
    ∧ (∀ v, unwrap obj = Except.ok v →
        v = obj.value ∧ obj.obligations = [] ∧ has_conflict obj.evidence = false) := by
  refine ⟨fun h => ?_, fun h => ?_, fun v h => ?_⟩
  · simp [unwrap, h]
  · have hnc : is_cleared obj = false := by
      rcases h with h | h
      · simp [is_cleared, List.length_eq_zero]
        intro hobl
        exact absurd hobl h
      · simp [is_cleared, h]
    simp [unwrap, hnc]
  · by_cases hc : is_cleared obj = true
    · have hv : v = obj.value := by
        have := h
        simp [unwrap, hc] at this
        exact this.symm
      have hcl := hc
      simp only [is_cleared, Bool.and_eq_true, beq_iff_eq, List.length_eq_zero,
        Bool.not_eq_true'] at hcl
      exact ⟨hv, hcl.1, hcl.2⟩
    · have : unwrap obj = Except.error (residualKinds obj.obligations) := by
        simp [unwrap, Bool.eq_false_iff.mpr hc]
      rw [this] at h
      exact absurd h (by simp)

/-- Concrete instance of `unwrap_iff_cleared`: an object with one residual
obligation fails with exactly the set of residual kinds. -/
theorem unwrap_iff_cleared_witness :
    ((([("pii_clean", "/c")] : List (String × String)) ≠ []
        ∨ has_conflict ([] : List ERecord) = true)
      ∧ unwrap ⟨JValue.null, [("pii_clean", "/c")], []⟩ =
          Except.error (residualKinds [("pii_clean", "/c")])) :=
  ⟨Or.inl (by decide),
   (unwrap_iff_cleared ⟨JValue.null, [("pii_clean", "/c")], []⟩).2.1 (Or.inl (by decide))⟩

/-! ### Claim C2 — the KMS release gate -/

/-- Claim C2: `verify_and_release_key(o)` returns `⊥` when obligations remain,
when the evidence chain fails to verify, or when a conflict is present; in
every other case it returns the cleared key `derive_key(∅, σ)`. -/
theorem verify_and_release_key_gate (secret : List Nat) (obj : ChavaObject) :
    (obj.obligations ≠ [] → verify_and_release_key secret obj = none)
    ∧ (verify_evidence_chain obj.evidence = false → verify_and_release_key secret obj = none)
    ∧ (has_conflict obj.evidence = true → verify_and_release_key secret obj = none)
    ∧ (obj.obligations = [] → verify_evidence_chain obj.evidence = true →
        has_conflict obj.evidence = false →
        verify_and_release_key secret obj = some (derive_key [] secret)) := by
  refine ⟨fun h => ?_, fun h => ?_, fun h => ?_, fun h hv hc => ?_⟩
  · have : 0 < obj.obligations.length := List.length_pos.mpr h
    simp [verify_and_release_key, this]
  · by_cases hl : 0 < obj.obligations.length
    · simp [verify_and_release_key, hl]
    · simp [verify_and_release_key, hl, h]
  · by_cases hl : 0 < obj.obligations.length
    · simp [verify_and_release_key, hl]
    · by_cases hv : verify_evidence_chain obj.evidence
      · simp [verify_and_release_key, hl, hv, h]
      · simp [verify_and_release_key, hl, hv]
  · simp [verify_and_release_key, h, hv, hc]

/-- Concrete instance of `verify_and_release_key_gate`: an empty object (no
obligations, empty evidence) receives the cleared key. -/
theorem verify_and_release_key_gate_witness :
    (([] : List (String × String)) = []
      ∧ verify_evidence_chain ([] : List ERecord) = true
      ∧ has_conflict ([] : List ERecord) = false)
    ∧ verify_and_release_key [] ⟨JValue.null, [], []⟩ = some (derive_key [] []) :=
  ⟨⟨rfl, by decide, by decide⟩,
   (verify_and_release_key_gate [] ⟨JValue.null, [], []⟩).2.2.2 rfl (by decide) (by decide)⟩

/-! ### Claim C10 — `unwrap` never consults hash-chain integrity -/

/-- Claim C10: for a cleared object (no obligations, conflict-free evidence),
`unwrap` returns the value even when the evidence hash chain is broken; a
broken chain blocks only the KMS release path. -/
theorem unwrap_ignores_chain_integrity (obj : ChavaObject) (secret : List Nat) :
    obj.obligations = [] → has_conflict obj.evidence = false →
    unwrap obj = Except.ok obj.value
    ∧ (verify_evidence_chain obj.evidence = false →
        verify_and_release_key secret obj = none) := by
  intro hobl hc
  constructor
  · simp [unwrap, is_cleared, hobl, hc]
  · intro hv
    by_cases hl : 0 < obj.obligations.length
    · simp [verify_and_release_key, hl]
    · simp [verify_and_release_key, hl, hv]

/-- Concrete instance of `unwrap_ignores_chain_integrity`: an evidence record
whose stored `hash` is absent breaks chain verification, yet the object still
unwraps; only the KMS refuses. -/
theorem unwrap_ignores_chain_integrity_witness :
    has_conflict [(⟨"v1", "accept", 0, some "", some "sql_safe", some "", none⟩ : ERecord)] = false
    ∧ verify_evidence_chain
        [(⟨"v1", "accept", 0, some "", some "sql_safe", some "", none⟩ : ERecord)] = false
    ∧ unwrap ⟨JValue.str "payload", [],
        [⟨"v1", "accept", 0, some "", some "sql_safe", some "", none⟩]⟩ =
        Except.ok (JValue.str "payload")
    ∧ verify_and_release_key [] ⟨JValue.str "payload", [],
        [⟨"v1", "accept", 0, some "", some "sql_safe", some "", none⟩]⟩ = none := by
  refine ⟨by decide, by decide, ?_, ?_⟩
  · exact (unwrap_ignores_chain_integrity
      ⟨JValue.str "payload", [], [⟨"v1", "accept", 0, some "", some "sql_safe", some "", none⟩]⟩
      [] rfl (by decide)).1
  · exact (unwrap_ignores_chain_integrity
      ⟨JValue.str "payload", [], [⟨"v1", "accept", 0, some "", some "sql_safe", some "", none⟩]⟩
      [] rfl (by decide)).2 (by decide)

/-! ### Claim C4 — `relscope` and the missing segment boundary -/

/-- `relscope` as the claim words it: after stripping leading `/`, the result
is `""` for the empty scope, `""` when scope equals base, `"/" + remainder`
when scope extends base across a `/` segment boundary, and `""` in every
other case — including a plain string prefix without a boundary. -/
def relscope_claimed (scope base : String) : String :=
  if scope = "" then ""
  else
    let s := scope.toList.dropWhile (fun c => c == '/')
    let b := base.toList.dropWhile (fun c => c == '/')
    if s = b then ""
    else if (b ++ ['/']).isPrefixOf s then String.mk ('/' :: s.drop (b.length + 1))
    else ""

/-- Counterexample to claim C4: for the scope `"/ab"` against the base
`"/a"` — a string prefix with no segment boundary — the claim demands `""`,
but the source returns `"/b"`. -/
theorem relscope_no_boundary_counterexample :
    relscope "/ab" "/a" = "/b" ∧ relscope_claimed "/ab" "/a" = ""
    ∧ relscope "/ab" "/a" ≠ relscope_claimed "/ab" "/a" := by
  refine ⟨by decide, by decide, by decide⟩

/-- `relscope` as the code has it, in the claim's case shape (empty scope,
equal normalised inputs, prefix, otherwise) — but with the boundary condition
a plain string-prefix test, and the remainder taken after the base with all
its leading slashes stripped. -/
def relscope_amended (scope base : String) : String :=
  if scope = "" then ""
  else
    if scope.toList.dropWhile (fun c => c == '/') =
        base.toList.dropWhile (fun c => c == '/') then ""
    else relscopeCore (scope.toList.dropWhile (fun c => c == '/'))
      (base.toList.dropWhile (fun c => c == '/'))

/-- The equal-inputs case folds into the prefix case: matching a list against
itself leaves an empty remainder. -/
theorem relscopeCore_self (s : List Char) : relscopeCore s s = "" := by
  unfold relscopeCore
  rw [if_pos (List.isPrefixOf_iff_prefix.mpr (List.prefix_refl s))]
  simp [List.drop_length]

/-- Claim C4 amended: `relscope(scope, base)` returns `""` for the empty
scope and when the normalised scope equals the normalised base; when the
normalised scope merely starts with the normalised base as a string prefix
(no segment-boundary check), it returns `"/" + rest` with the rest's leading
slashes stripped (`""` if nothing remains); otherwise `""`. -/
theorem relscope_eq_amended (scope base : String) :
    relscope scope base = relscope_amended scope base := by
  unfold relscope relscope_amended
  by_cases h0 : scope = ""
  · simp [h0]
  · rw [if_neg h0, if_neg h0]
    by_cases hsb : scope.toList.dropWhile (fun c => c == '/') =
        base.toList.dropWhile (fun c => c == '/')
    · rw [if_pos hsb, hsb, relscopeCore_self]
    · rw [if_neg hsb]

/-! ### Claim C9 — the pointer-trie subtree query -/

/-- Claim C9 fails on the code: after recording `"x"` only at scope `"/a"`,
querying the (absent) path `"/b"` returns `"x"`, although `"/a"` is neither
`"/b"` nor a descendant of `"/b"` — the traversal `break`s at the deepest
existing node and collects that node's whole subtree. -/
theorem get_objects_at_path_missing_path_bug :
    get_objects_at_path (Trie.empty.add "x" [("pii_clean", "/a")]) "/b" = ["x"]
    ∧ ¬ ("/a" = "/b" ∨ pyStartswith "/a" ("/b" ++ "/") = true) := by
  refine ⟨by decide, by decide⟩

/-! ### Claim C5 — `project` rewrites obligations and keeps evidence -/

/-- The loop of `project` is the obligation-wise rewrite the claim describes:
keep-and-reanchor at/below (or unscoped), retarget strict ancestors to `""`,
drop disjoint scopes. -/
theorem projectObligations_eq_filterMap (path : String) (l : List (String × String)) :
    projectObligations path l = l.filterMap (fun p =>
      if p.2 = "" ∨ p.2 = path ∨ pyStartswith p.2 (path ++ "/") = true then
        some (p.1, relscope p.2 path)
      else if pyStartswith path (p.2 ++ "/") = true then some (p.1, "")
      else none) := by
  induction l with
  | nil => rfl
  | cons hd tl ih =>
    obtain ⟨kind, scope⟩ := hd
    by_cases h1 : scope = "" ∨ scope = path ∨ pyStartswith scope (path ++ "/") = true
    · simp [projectObligations, List.filterMap_cons, h1, ih]
    · by_cases h2 : pyStartswith path (scope ++ "/") = true
      · simp [projectObligations, List.filterMap_cons, h1, h2, ih]
      · simp [projectObligations, List.filterMap_cons, h1, h2, ih]

/-- Claim C5: on pointer-resolution failure, `project(o, p)` yields the
`null`-valued object with `("invalid_path", "")` appended to the obligations
and the evidence unchanged; on success, every obligation at or below `p` (or
unscoped) is reanchored through `relscope`, every obligation strictly above
`p` becomes whole-value, disjoint obligations are dropped, and the evidence
sequence is preserved verbatim. -/
theorem project_rewrite_spec (obj : ChavaObject) (path : String) :
    (resolvePtr obj.value path = none →
      project obj path =
        ⟨JValue.null, obj.obligations ++ [("invalid_path", "")], obj.evidence⟩)
    ∧ (∀ v, resolvePtr obj.value path = some v →
        (project obj path).value = v
        ∧ (project obj path).evidence = obj.evidence
        ∧ (project obj path).obligations = obj.obligations.filterMap (fun p =>
            if p.2 = "" ∨ p.2 = path ∨ pyStartswith p.2 (path ++ "/") = true then
              some (p.1, relscope p.2 path)
            else if pyStartswith path (p.2 ++ "/") = true then some (p.1, "")
            else none)) := by
  constructor
  · intro h
    simp [project, h]
  · intro v h
    simp [project, h, projectObligations_eq_filterMap]

/-- Concrete instance of `project_rewrite_spec`: projecting to `"/a"` keeps
the scoped obligation reanchored to the root, turns the ancestor-scoped
obligation into a whole-value one, and drops the sibling obligation. -/
theorem project_rewrite_spec_witness :
    resolvePtr (JValue.obj [("a", JValue.obj [("c", JValue.num 1)]), ("b", JValue.num 2)]) "/a"
      = some (JValue.obj [("c", JValue.num 1)])
    ∧ (project ⟨JValue.obj [("a", JValue.obj [("c", JValue.num 1)]), ("b", JValue.num 2)],
        [("k1", "/a/c"), ("k2", ""), ("k3", "/b")], []⟩ "/a").value
        = JValue.obj [("c", JValue.num 1)]
    ∧ (project ⟨JValue.obj [("a", JValue.obj [("c", JValue.num 1)]), ("b", JValue.num 2)],
        [("k1", "/a/c"), ("k2", ""), ("k3", "/b")], []⟩ "/a").evidence = []
    ∧ (project ⟨JValue.obj [("a", JValue.obj [("c", JValue.num 1)]), ("b", JValue.num 2)],
        [("k1", "/a/c"), ("k2", ""), ("k3", "/b")], []⟩ "/a").obligations =
        ([("k1", "/a/c"), ("k2", ""), ("k3", "/b")] : List (String × String)).filterMap (fun p =>
          if p.2 = "" ∨ p.2 = "/a" ∨ pyStartswith p.2 ("/a" ++ "/") = true then
            some (p.1, relscope p.2 "/a")
          else if pyStartswith "/a" (p.2 ++ "/") = true then some (p.1, "")
          else none) := by
  have h := (project_rewrite_spec
    ⟨JValue.obj [("a", JValue.obj [("c", JValue.num 1)]), ("b", JValue.num 2)],
      [("k1", "/a/c"), ("k2", ""), ("k3", "/b")], []⟩ "/a").2
    (JValue.obj [("c", JValue.num 1)]) rfl
  exact ⟨rfl, h.1, h.2.1, h.2.2⟩

/-! ### Claim C7 — the canonical evidence hash covers exactly four fields -/

/-- Claim C7: `compute_evidence_hash` is the hex SHA-256 of the canonical
(sorted-key, whitespace-normalised) JSON serialization of exactly
`verifier_id`, `result`, `timestamp`, `prev_hash`; hence two records that
agree on those four fields — whatever their `kind`, `scope` or stored
`hash` — have identical hashes. -/
theorem compute_evidence_hash_fields (r1 r2 : ERecord) :
    compute_evidence_hash r1 = sha256HexOfString (canonicalEvidenceJson r1)
    ∧ (r1.verifier_id = r2.verifier_id → r1.result = r2.result →
        r1.timestamp = r2.timestamp → r1.prev_hash = r2.prev_hash →
        compute_evidence_hash r1 = compute_evidence_hash r2) := by
  constructor
  · rfl
  · intro h1 h2 h3 h4
    unfold compute_evidence_hash canonicalEvidenceJson
    rw [h1, h2, h3, h4]

/-- Concrete instance of `compute_evidence_hash_fields`: two records sharing
the four hashed fields but with different `kind` and `scope` (and one with no
`kind` at all) hash identically. -/
theorem compute_evidence_hash_fields_witness :
    (⟨"v1", "accept", 7, some "p", some "sql_safe", some "/q", none⟩ : ERecord).kind
      ≠ (⟨"v1", "accept", 7, some "p", none, some "/r", some "zz"⟩ : ERecord).kind
    ∧ (⟨"v1", "accept", 7, some "p", some "sql_safe", some "/q", none⟩ : ERecord).scope
      ≠ (⟨"v1", "accept", 7, some "p", none, some "/r", some "zz"⟩ : ERecord).scope
    ∧ compute_evidence_hash ⟨"v1", "accept", 7, some "p", some "sql_safe", some "/q", none⟩
      = compute_evidence_hash ⟨"v1", "accept", 7, some "p", none, some "/r", some "zz"⟩ :=
  ⟨by decide, by decide,
   (compute_evidence_hash_fields
      ⟨"v1", "accept", 7, some "p", some "sql_safe", some "/q", none⟩
      ⟨"v1", "accept", 7, some "p", none, some "/r", some "zz"⟩).2 rfl rfl rfl rfl⟩

/-! ### Claim C3 — the discharge protocol -/

/-- Claim C3: with `(k, s)` among the obligations and a verifier registered
for `k`, `discharge` appends exactly one evidence record; on `accept` it
additionally removes exactly one occurrence of `(k, s)` (the count and the
length both drop by one), while on `reject` or `conditional` the obligations
are left unchanged. -/
theorem discharge_obligation_accounting (obj : ChavaObject) (kind scope : String)
    (registry : String → Option (JValue → String → String))
    (verifier_id : String) (now : Int) (verifier : JValue → String → String) :
    registry kind = some verifier → (kind, scope) ∈ obj.obligations →
    ∃ o', discharge obj kind scope registry verifier_id now = some o'
      ∧ (∃ r, o'.evidence = obj.evidence ++ [r])
      ∧ (verifier (dischargeScopedValue obj scope) scope = "accept" →
          o'.obligations.count (kind, scope) + 1 = obj.obligations.count (kind, scope)
          ∧ o'.obligations.length + 1 = obj.obligations.length)
      ∧ (verifier (dischargeScopedValue obj scope) scope = "reject"
          ∨ verifier (dischargeScopedValue obj scope) scope = "conditional" →
          o'.obligations = obj.obligations) := by
  intro hreg hmem
  unfold discharge
  rw [if_neg (by simpa using hmem), hreg]
  refine ⟨_, rfl, ⟨_, rfl⟩, fun hacc => ?_, fun hother => ?_⟩
  · rw [if_pos hacc]
    constructor
    · have hcount : 0 < obj.obligations.count (kind, scope) :=
        List.count_pos_iff.mpr hmem
      rw [List.count_erase_self]
      omega
    · have hlen : 0 < obj.obligations.length := List.length_pos.mpr (by
        intro hnil
        rw [hnil] at hmem
        exact absurd hmem (List.not_mem_nil _))
      rw [List.length_erase_of_mem hmem]
      omega
  · have hne : ¬ verifier (dischargeScopedValue obj scope) scope = "accept" := by
      rcases hother with h | h <;> simp [h]
    rw [if_neg hne]

/-- A registry holding one always-accepting verifier, for the witnesses. -/
def acceptVerifier : JValue → String → String := fun _ _ => "accept"

/-- A one-entry registry mapping `"pii_clean"` to `acceptVerifier`. -/
def testRegistry : String → Option (JValue → String → String) :=
  fun k => if k = "pii_clean" then some acceptVerifier else none

/-- Concrete instance of `discharge_obligation_accounting`: discharging the
single obligation of a one-obligation object through an accepting verifier. -/
theorem discharge_obligation_accounting_witness :
    testRegistry "pii_clean" = some acceptVerifier
    ∧ ("pii_clean", "") ∈ (⟨JValue.str "v", [("pii_clean", "")], []⟩ : ChavaObject).obligations
    ∧ ∃ o', discharge ⟨JValue.str "v", [("pii_clean", "")], []⟩ "pii_clean" "" testRegistry
          "v1" 0 = some o'
        ∧ (∃ r, o'.evidence =
            (⟨JValue.str "v", [("pii_clean", "")], []⟩ : ChavaObject).evidence ++ [r])
        ∧ (acceptVerifier
              (dischargeScopedValue ⟨JValue.str "v", [("pii_clean", "")], []⟩ "") "" = "accept" →
            o'.obligations.count ("pii_clean", "") + 1 =
              (⟨JValue.str "v", [("pii_clean", "")], []⟩ : ChavaObject).obligations.count
                ("pii_clean", "")
            ∧ o'.obligations.length + 1 =
              (⟨JValue.str "v", [("pii_clean", "")], []⟩ : ChavaObject).obligations.length)
        ∧ (acceptVerifier
              (dischargeScopedValue ⟨JValue.str "v", [("pii_clean", "")], []⟩ "") "" = "reject"
            ∨ acceptVerifier
              (dischargeScopedValue ⟨JValue.str "v", [("pii_clean", "")], []⟩ "") "" = "conditional" →
            o'.obligations =
              (⟨JValue.str "v", [("pii_clean", "")], []⟩ : ChavaObject).obligations) :=
  ⟨rfl, by decide,
   discharge_obligation_accounting ⟨JValue.str "v", [("pii_clean", "")], []⟩ "pii_clean" ""
     testRegistry "v1" 0 acceptVerifier rfl (by decide)⟩

/-! ### Claim C6 — the conflict detector -/

/-- Once a `reject` has been seen, the scan accepts iff an `accept` occurs in
the rest of the group. -/
theorem rtaScan_true_iff (l : List String) :
    rtaScan true l = true ↔ "accept" ∈ l := by
  induction l with
  | nil => simp [rtaScan]
  | cons r rs ih =>
    by_cases h1 : r = "reject"
    · subst h1
      have hstep : rtaScan true ("reject" :: rs) = rtaScan true rs := by
        simp [rtaScan]
      rw [hstep, ih, List.mem_cons]
      constructor
      · exact Or.inr
      · rintro (h | h)
        · exact absurd h (by decide)
        · exact h
    · by_cases h2 : r = "accept"
      · subst h2
        simp [rtaScan, h1]
      · have hstep : rtaScan true (r :: rs) = rtaScan true rs := by
          simp [rtaScan, h1, h2]
        rw [hstep, ih, List.mem_cons]
        constructor
        · exact Or.inr
        · rintro (h | h)
          · exact absurd h.symm h2
          · exact h

/-- Decompose an ordered reject/accept pair in `a :: l` into its head case
and its tail case. -/
theorem existsPair_cons (a x y : String) (l : List String) :
    (∃ i j : Nat, i < j ∧ (a :: l)[i]? = some x ∧ (a :: l)[j]? = some y)
    ↔ ((a = x ∧ y ∈ l) ∨ ∃ i j : Nat, i < j ∧ l[i]? = some x ∧ l[j]? = some y) := by
  constructor
  · rintro ⟨i, j, hij, hx, hy⟩
    match i, j with
    | _, 0 => omega
    | 0, j + 1 =>
      refine Or.inl ⟨?_, ?_⟩
      · simpa using hx
      · exact List.mem_iff_getElem?.mpr ⟨j, by simpa using hy⟩
    | i + 1, j + 1 =>
      exact Or.inr ⟨i, j, by omega, by simpa using hx, by simpa using hy⟩
  · rintro (⟨ha, hy⟩ | ⟨i, j, hij, hx, hy⟩)
    · obtain ⟨j, hj⟩ := List.mem_iff_getElem?.mp hy
      exact ⟨0, j + 1, Nat.succ_pos j, by simpa using ha, by simpa using hj⟩
    · exact ⟨i + 1, j + 1, by omega, by simpa using hx, by simpa using hy⟩

/-- The left-to-right scan of one kind group finds a conflict iff a `reject`
is followed, at any strictly later position, by an `accept`. -/
theorem rtaScan_false_iff (l : List String) :
    rtaScan false l = true
    ↔ ∃ i j : Nat, i < j ∧ l[i]? = some "reject" ∧ l[j]? = some "accept" := by
  induction l with
  | nil => simp [rtaScan]
  | cons r rs ih =>
    rw [existsPair_cons]
    by_cases h1 : r = "reject"
    · subst h1
      have hstep : rtaScan false ("reject" :: rs) = rtaScan true rs := by
        simp [rtaScan]
      rw [hstep, rtaScan_true_iff]
      constructor
      · exact fun h => Or.inl ⟨rfl, h⟩
      · rintro (⟨-, h⟩ | ⟨i, j, -, hx, hy⟩)
        · exact h
        · exact List.mem_iff_getElem?.mpr ⟨j, hy⟩
    · have hscan : rtaScan false (r :: rs) = rtaScan false rs := by
        simp [rtaScan, h1]
      rw [hscan, ih]
      constructor
      · exact Or.inr
      · rintro (⟨ha, -⟩ | h)
        · exact absurd ha h1
        · exact h

/-- Membership in a kind group comes from a record of that kind. -/
theorem mem_resultsForKind {E : List ERecord} {k : Option String} {x : String} :
    x ∈ resultsForKind E k ↔ ∃ r, r ∈ E ∧ r.kind = k ∧ r.result = x := by
  simp only [resultsForKind, List.mem_map, List.mem_filter, beq_iff_eq]
  constructor
  · rintro ⟨r, ⟨hrE, hk⟩, hres⟩
    exact ⟨r, hrE, hk, hres⟩
  · rintro ⟨r, hrE, hk, hres⟩
    exact ⟨r, ⟨hrE, hk⟩, hres⟩

/-- Appending a record of the group's kind appends its result to the group. -/
theorem resultsForKind_append_same (E : List ERecord) (a : ERecord) :
    resultsForKind (E ++ [a]) a.kind = resultsForKind E a.kind ++ [a.result] := by
  simp [resultsForKind, List.filter_append]

/-- Claim C6: `has_conflict(E)` is true iff some kind group (absent kinds
bucketed together) has a `reject` strictly before an `accept`; it is monotone
under appending an `accept` record to a group already containing a `reject`,
and false whenever all records of each kind share one result. -/
theorem has_conflict_reject_then_accept (E : List ERecord) :
    (has_conflict E = true ↔ ∃ (k : Option String) (i j : Nat), i < j
        ∧ (resultsForKind E k)[i]? = some "reject"
        ∧ (resultsForKind E k)[j]? = some "accept")
    ∧ (∀ r a, r ∈ E → r.result = "reject" → a.kind = r.kind → a.result = "accept" →
        has_conflict (E ++ [a]) = true)
    ∧ ((∀ r ∈ E, ∀ r' ∈ E, r.kind = r'.kind → r.result = r'.result) →
        has_conflict E = false) := by
  have hiff : ∀ F : List ERecord, has_conflict F = true ↔ ∃ (k : Option String) (i j : Nat), i < j
      ∧ (resultsForKind F k)[i]? = some "reject"
      ∧ (resultsForKind F k)[j]? = some "accept" := by
    intro F
    unfold has_conflict
    rw [List.any_eq_true]
    constructor
    · rintro ⟨k, -, hscan⟩
      obtain ⟨i, j, hij, hx, hy⟩ := (rtaScan_false_iff _).mp hscan
      exact ⟨k, i, j, hij, hx, hy⟩
    · rintro ⟨k, i, j, hij, hx, hy⟩
      have hxmem : "reject" ∈ resultsForKind F k :=
        List.mem_iff_getElem?.mpr ⟨i, hx⟩
      obtain ⟨r, hrF, hrk, -⟩ := mem_resultsForKind.mp hxmem
      refine ⟨r.kind, List.mem_map.mpr ⟨r, hrF, rfl⟩, ?_⟩
      rw [hrk]
      exact (rtaScan_false_iff _).mpr ⟨i, j, hij, hx, hy⟩
  refine ⟨hiff E, fun r a hrE hrres hak hares => ?_, fun hsame => ?_⟩
  · rw [hiff]
    have hrmem : "reject" ∈ resultsForKind E a.kind := by
      rw [hak]
      exact mem_resultsForKind.mpr ⟨r, hrE, rfl, hrres⟩
    obtain ⟨i, hi⟩ := List.mem_iff_getElem?.mp hrmem
    have hilt : i < (resultsForKind E a.kind).length :=
      (List.getElem?_eq_some.mp hi).1
    refine ⟨a.kind, i, (resultsForKind E a.kind).length, hilt, ?_, ?_⟩
    · rw [resultsForKind_append_same, List.getElem?_append]
      simp [hilt, hi]
    · rw [resultsForKind_append_same, ← hares]
      exact List.getElem?_concat_length _ _
  · by_contra hconf
    have hconf' : has_conflict E = true := by
      revert hconf
      cases has_conflict E <;> simp
    obtain ⟨k, i, j, -, hx, hy⟩ := (hiff E).mp hconf'
    obtain ⟨r, hrE, hrk, hrres⟩ :=
      mem_resultsForKind.mp (List.mem_iff_getElem?.mpr ⟨i, hx⟩)
    obtain ⟨r', hr'E, hr'k, hr'res⟩ :=
      mem_resultsForKind.mp (List.mem_iff_getElem?.mpr ⟨j, hy⟩)
    have := hsame r hrE r' hr'E (hrk.trans hr'k.symm)
    rw [hrres, hr'res] at this
    exact absurd this (by decide)

/-- Concrete instance of `has_conflict_reject_then_accept`: appending an
`accept` for a kind whose group holds a `reject` makes the log conflicted. -/
theorem has_conflict_reject_then_accept_witness :
    (⟨"v1", "reject", 1, some "", some "sql_safe", some "", some "h1"⟩ : ERecord)
      ∈ [(⟨"v1", "reject", 1, some "", some "sql_safe", some "", some "h1"⟩ : ERecord)]
    ∧ (⟨"v1", "reject", 1, some "", some "sql_safe", some "", some "h1"⟩ : ERecord).result
        = "reject"
    ∧ (⟨"v2", "accept", 2, some "h1", some "sql_safe", some "", some "h2"⟩ : ERecord).kind
        = (⟨"v1", "reject", 1, some "", some "sql_safe", some "", some "h1"⟩ : ERecord).kind
    ∧ (⟨"v2", "accept", 2, some "h1", some "sql_safe", some "", some "h2"⟩ : ERecord).result
        = "accept"
    ∧ has_conflict
        ([⟨"v1", "reject", 1, some "", some "sql_safe", some "", some "h1"⟩] ++
          [⟨"v2", "accept", 2, some "h1", some "sql_safe", some "", some "h2"⟩]) = true :=
  ⟨by decide, rfl, rfl, rfl,
   (has_conflict_reject_then_accept
      [⟨"v1", "reject", 1, some "", some "sql_safe", some "", some "h1"⟩]).2.1
      ⟨"v1", "reject", 1, some "", some "sql_safe", some "", some "h1"⟩
      ⟨"v2", "accept", 2, some "h1", some "sql_safe", some "", some "h2"⟩
      (by decide) rfl rfl rfl⟩

/-! ### Claim C8 — key derivation is a function of the obligation multiset -/

/-- The Python tuple order on `(kind, scope)` is transitive. -/
theorem obligationLe_trans (a b c : String × String) :
    obligationLe a b = true → obligationLe b c = true → obligationLe a c = true := by
  simp only [obligationLe, decide_eq_true_eq]
  rintro (h1 | ⟨e1, h1⟩) (h2 | ⟨e2, h2⟩)
  · exact Or.inl (lt_trans h1 h2)
  · exact Or.inl (e2 ▸ h1)
  · exact Or.inl (e1 ▸ h2)
  · exact Or.inr ⟨e1.trans e2, le_trans h1 h2⟩

/-- The Python tuple order on `(kind, scope)` is total. -/
theorem obligationLe_total (a b : String × String) :
    (obligationLe a b || obligationLe b a) = true := by
  simp only [obligationLe, Bool.or_eq_true, decide_eq_true_eq]
  rcases lt_trichotomy a.1 b.1 with h | h | h
  · exact Or.inl (Or.inl h)
  · rcases le_total a.2 b.2 with h2 | h2
    · exact Or.inl (Or.inr ⟨h, h2⟩)
    · exact Or.inr (Or.inr ⟨h.symm, h2⟩)
  · exact Or.inr (Or.inl h)

/-- The Python tuple order on `(kind, scope)` is antisymmetric. -/
theorem obligationLe_antisymm (a b : String × String) :
    obligationLe a b = true → obligationLe b a = true → a = b := by
  simp only [obligationLe, decide_eq_true_eq]
  rintro (h1 | ⟨e1, h1⟩) (h2 | ⟨e2, h2⟩)
  · exact absurd h2 (lt_asymm h1)
  · exact absurd h1 (e2 ▸ lt_irrefl a.1)
  · exact absurd h2 (e1 ▸ lt_irrefl a.1)
  · obtain ⟨a1, a2⟩ := a
    obtain ⟨b1, b2⟩ := b
    simp only at e1 h1 h2
    rw [e1, le_antisymm h1 h2]

/-- Permutation-equal obligation lists sort identically under Python's
`sorted`. -/
theorem pySorted_perm_eq {l1 l2 : List (String × String)} (h : l1.Perm l2) :
    pySorted l1 = pySorted l2 := by
  haveI : IsAntisymm (String × String) (fun a b => obligationLe a b = true) :=
    ⟨obligationLe_antisymm⟩
  apply List.eq_of_perm_of_sorted
    (r := fun a b => obligationLe a b = true)
  · exact ((List.mergeSort_perm l1 obligationLe).trans h).trans
      (List.mergeSort_perm l2 obligationLe).symm
  · exact List.sorted_mergeSort obligationLe_trans obligationLe_total l1
  · exact List.sorted_mergeSort obligationLe_trans obligationLe_total l2

/-- Claim C8: `derive_key` runs PBKDF2 with a salt that is SHA-256 of the
canonical rendering of the lexicographically sorted obligation list, so any
two obligation lists equal as multisets yield byte-identical keys. -/
theorem derive_key_multiset_invariant (secret : List Nat)
    (l1 l2 : List (String × String)) :
    derive_key l1 secret =
      pbkdf2HmacSha256 secret (sha256 (utf8 (pyStrOfList (pySorted l1)))) 100000 32
    ∧ (l1.Perm l2 → derive_key l1 secret = derive_key l2 secret) := by
  have hmap : ∀ l : List (String × String), l.map (fun p => (p.1, p.2)) = l := by
    intro l
    simp
  constructor
  · simp only [derive_key, hmap]
  · intro h
    simp only [derive_key, hmap, pySorted_perm_eq h]

/-- Concrete instance of `derive_key_multiset_invariant`: swapping two
obligations leaves the derived key unchanged. -/
theorem derive_key_multiset_invariant_witness :
    ([("sql_safe", ""), ("pii_clean", "/c")] : List (String × String)).Perm
      [("pii_clean", "/c"), ("sql_safe", "")]
    ∧ derive_key [("sql_safe", ""), ("pii_clean", "/c")] [1, 2, 3]
      = derive_key [("pii_clean", "/c"), ("sql_safe", "")] [1, 2, 3] :=
  ⟨by decide,
   (derive_key_multiset_invariant [1, 2, 3] [("sql_safe", ""), ("pii_clean", "/c")]
      [("pii_clean", "/c"), ("sql_safe", "")]).2 (by decide)⟩

end Chava
